import Mathlib

/-!
Shallow embedding of the `github-grab` pipeline (`pipeline.py`).

Strings are modelled as `List Char` (`Str`), byte strings as `List Nat`.
Network and filesystem effects are modelled by passing the environment's
responses as explicit arguments and returning explicit traces of the
side effects that the Python code performs (HTTP requests issued,
renames, directory removals, queue POSTs, scheduled callbacks).
-/

set_option autoImplicit false

abbrev Str := List Char

/-! ### CheckIP (`CheckIP.process`, pipeline.py lines 70-95)

The body of the check resolves six fixed hostnames, accumulates the
results in a set (`ip_set`), and raises unless the set has exactly six
elements.  `resolve` stands for `socket.gethostbyname`; the set of
distinct addresses is modelled as `List.dedup` of the resolved list. -/

def hostnames : List Str :=
  ["twitter.com".data, "facebook.com".data, "youtube.com".data,
   "microsoft.com".data, "icanhas.cheezburger.com".data, "archiveteam.org".data]

def checkIP (resolve : Str → Str) : Except Unit Unit :=
  if ((hostnames.map resolve).dedup).length ≠ 6 then .error () else .ok ()

/-! ### PrepareDirectories (`PrepareDirectories.process`, pipeline.py lines 103-126) -/

/-- `s.replace(a, b)` for a single-character pattern. -/
def replaceChar (a b : Char) (s : Str) : Str :=
  s.map (fun c => if c = a then b else c)

/-- `item_name.replace(':', '_').replace('/', '_').replace('~', '_')` -/
def escaped_item_name (item_name : Str) : Str :=
  replaceChar '~' '_' (replaceChar '/' '_' (replaceChar ':' '_' item_name))

/-- `dirname = '/'.join((item['data_dir'], escaped_item_name))` -/
def dirnameOf (data_dir item_name : Str) : Str :=
  data_dir ++ ['/'] ++ escaped_item_name item_name

/-- `item['warc_file_base'] = '-'.join([prefix, escaped[:45], sha1(name)[:10], strftime])`.
`sha1hex` stands for `hashlib.sha1(...).hexdigest()` and `time_str` for
`time.strftime('%Y%m%d-%H%M%S')`. -/
def warc_file_base (sha1hex : Str → Str) (prefixStr item_name time_str : Str) : Str :=
  List.intercalate ['-']
    [prefixStr, (escaped_item_name item_name).take 45,
     (sha1hex item_name).take 10, time_str]

/-- The empty placeholder `open('%(item_dir)s/%(warc_file_base)s.warc.gz', 'w')`. -/
def placeholderWarcPath (item_dir base : Str) : Str :=
  item_dir ++ ['/'] ++ base ++ ".warc.gz".data

/-- The empty placeholder `open('%(item_dir)s/%(warc_file_base)s_data.txt', 'w')`. -/
def placeholderDataPath (item_dir base : Str) : Str :=
  item_dir ++ ['/'] ++ base ++ "_data.txt".data

/-! ### MoveFiles (`MoveFiles.process`, pipeline.py lines 133-147) -/

/-- The item fields `MoveFiles.process` reads. -/
structure MoveItem where
  item_dir : Str
  data_dir : Str
  warc_file_base : Str
  dict_project : Str
  dict_id : Str
  item_name : Str
  start_time : Str
  deriving DecidableEq

/-- `'%(item_dir)s/%(warc_file_base)s.warc.zst' % item` -/
def warcSrcPath (it : MoveItem) : Str :=
  it.item_dir ++ ['/'] ++ it.warc_file_base ++ ".warc.zst".data

/-- `'%(data_dir)s/%(warc_file_base)s.%(dict_project)s.%(dict_id)s.warc.zst' % item` -/
def warcDstPath (it : MoveItem) : Str :=
  it.data_dir ++ ['/'] ++ it.warc_file_base ++ ['.'] ++ it.dict_project ++ ['.']
    ++ it.dict_id ++ ".warc.zst".data

/-- `'%(item_dir)s/%(warc_file_base)s_data.txt' % item` -/
def dataSrcPath (it : MoveItem) : Str :=
  it.item_dir ++ ['/'] ++ it.warc_file_base ++ "_data.txt".data

/-- `'%(data_dir)s/%(warc_file_base)s_data.txt' % item` -/
def dataDstPath (it : MoveItem) : Str :=
  it.data_dir ++ ['/'] ++ it.warc_file_base ++ "_data.txt".data

/-- `new_item = ':'.join(['web', item['start_time']] + item['item_name'].split(':')[2:])` -/
def new_item (item_name start_time : Str) : Str :=
  List.intercalate [':'] (["web".data, start_time] ++ (item_name.splitOn ':').drop 2)

/-- Side effects performed by `MoveFiles.process`, in program order. -/
inductive MFEvent
  | renameWarc (src dst : Str)
  | renameData (src dst : Str)
  | rmtreeDir (dir : Str)
  | postQueue (body : Str)
  deriving DecidableEq

/-- `os.rename(src, dst)` on a filesystem modelled as the list of file paths:
fails when `src` does not exist. -/
def osRename (src dst : Str) (fs : List Str) : Except Unit (List Str) :=
  if src ∈ fs then .ok (dst :: fs.erase src) else .error ()

/-- `shutil.rmtree(dir)`: removes every file under `dir`. -/
def rmtreeFs (dir : Str) (fs : List Str) : List Str :=
  fs.filter (fun p => ! ((dir ++ ['/']).isPrefixOf p))

structure MFResult where
  fs : List Str
  outcome : Except Unit Unit
  events : List MFEvent

/-- `MoveFiles.process`: two renames, `shutil.rmtree` of the staging
directory, then an unconditional POST of `new_item` to the downstream
queue, followed by `assert r.status_code == 200`.  `postStatus` is the
queue's HTTP status; `fs0` the filesystem.  The returned `fs` is the
filesystem after the step (the assert does not roll anything back). -/
def moveFilesRun (it : MoveItem) (postStatus : Nat) (fs0 : List Str) : MFResult :=
  match osRename (warcSrcPath it) (warcDstPath it) fs0 with
  | .error _ => ⟨fs0, .error (), []⟩
  | .ok fs1 =>
    match osRename (dataSrcPath it) (dataDstPath it) fs1 with
    | .error _ => ⟨fs1, .error (), [.renameWarc (warcSrcPath it) (warcDstPath it)]⟩
    | .ok fs2 =>
      ⟨rmtreeFs it.item_dir fs2,
       if postStatus = 200 then .ok () else .error (),
       [.renameWarc (warcSrcPath it) (warcDstPath it),
        .renameData (dataSrcPath it) (dataDstPath it),
        .rmtreeDir it.item_dir,
        .postQueue (new_item it.item_name it.start_time)]⟩

/-! ### ChooseTargetAndUpload (`pipeline.py` lines 150-219) -/

/-- Fuel-indexed body of Python `str.replace(pat, rep)`: replaces
non-overlapping occurrences left to right.  The fuel is an upper bound
on the number of characters consumed; each step consumes at least one. -/
def strReplaceAux (pat rep : Str) : Nat → Str → Str
  | 0, s => s
  | _ + 1, [] => []
  | fuel + 1, c :: rest =>
    if pat ≠ [] ∧ pat.isPrefixOf (c :: rest) then
      rep ++ strReplaceAux pat rep fuel ((c :: rest).drop pat.length)
    else
      c :: strReplaceAux pat rep fuel rest

/-- `s.replace(pat, rep)` (for the nonempty pattern `':downloader'`). -/
def strReplace (pat rep s : Str) : Str :=
  strReplaceAux pat rep s.length s

/-- `re.search('^[^:]+://([^/:]+)', target)` and `.group(1)`: `none` models
the `AttributeError` raised when the pattern does not match. -/
def extractDomain (target : Str) : Option Str :=
  let scheme := target.takeWhile (fun c => c != ':')
  let rest := target.drop scheme.length
  if scheme = [] then none
  else if ("://".data).isPrefixOf rest then
    let domain := (rest.drop 3).takeWhile (fun c => c != '/' && c != ':')
    if domain = [] then none else some domain
  else none

/-- `ChooseTargetAndUpload.find_target`, after the target list has been
fetched and shuffled.  `probe` stands for the HTTP probe
`GET http://{domain}:3000/?name=&size=` followed by `r.json()['accepts']`;
`.error` models an exception (probe timeout, bad JSON, `getsize` failure).
Returns the outcome together with the list of domains probed, in order.
On acceptance the selected target is
`target.replace(':downloader', item['stats']['downloader'])`. -/
def find_target (probe : Str → Except Unit Bool) (downloader : Str) :
    List Str → Except Unit (Option Str) × List Str
  | [] => (.ok none, [])
  | t :: rest =>
    match extractDomain t with
    | none => (.error (), [])
    | some d =>
      match probe d with
      | .error e => (.error e, [d])
      | .ok true => (.ok (some (strReplace (":downloader".data) downloader t)), [d])
      | .ok false =>
        let r := find_target probe downloader rest
        (r.1, d :: r.2)

/-- `self.retry_sleep = 10` -/
def retry_sleep : Nat := 10

/-- What one invocation of `ChooseTargetAndUpload.process` does at the end:
either the item is completed, or `self.retry` schedules
`IOLoop.instance().add_timeout(timedelta(seconds=retry_sleep), partial(self.process, item))`
— a deferred re-invocation of `process` on the cooperative event loop,
not a blocking sleep.  There is no failure constructor: `process` never
terminates the item unsuccessfully. -/
inductive UploadAction
  | complete
  | addTimeout (delaySeconds : Nat)
  deriving DecidableEq

/-- One invocation of `ChooseTargetAndUpload.process`: `findResult` is the
outcome of `find_target` (`.error` = an exception anywhere in target
discovery or probing, `.ok none` = no accepting target, caught by the
`assert target is not None` / bare `except`), and `transferOk` tells
whether the one-shot (`max_tries=1`) `RsyncUpload` succeeded. -/
def processAction (findResult : Except Unit (Option Str)) (transferOk : Bool) : UploadAction :=
  match findResult with
  | .error _ => .addTimeout retry_sleep
  | .ok none => .addTimeout retry_sleep
  | .ok (some _) => if transferOk then .complete else .addTimeout retry_sleep

/-- Whether one attempt (find-target outcome, transfer outcome) succeeds. -/
def attemptOk (p : Except Unit (Option Str) × Bool) : Bool :=
  (match p.1 with | .ok (some _) => true | _ => false) && p.2

/-- The actions taken by the first `n` attempts of the retry loop, when the
environment's responses for attempt `k` are `outcomes k`. -/
def uploadTrace (outcomes : Nat → Except Unit (Option Str) × Bool) (n : Nat) :
    List UploadAction :=
  (List.range n).map (fun k => processAction (outcomes k).1 (outcomes k).2)

/-! ### ZstdDict (`ZstdDict.get_dict`, pipeline.py lines 241-273) -/

/-- `cls.data = {'id': ..., 'dict': ...}` -/
structure DictRecord where
  id : Str
  dict : List Nat
  deriving DecidableEq

/-- The class-level mutable state `cls.created`, `cls.data`. -/
structure CacheState where
  created : Int
  data : Option DictRecord
  deriving DecidableEq

/-- The JSON body (and `raise_for_status` outcome) of
`GET /dictionary?project=github`. -/
structure MetaResponse where
  ok : Bool
  id : Str
  url : Str
  sha256 : Str

/-- The payload response for `GET response['url']`. -/
structure PayloadResponse where
  ok : Bool
  content : List Nat

/-- The network requests `get_dict` can issue, in order. -/
inductive NetOp
  | metaRequest
  | payloadDownload (url : Str)
  deriving DecidableEq

/-- The zstd frame magic `b'\x28\xB5\x2F\xFD'`. -/
def zstdMagic : List Nat := [0x28, 0xB5, 0x2F, 0xFD]

structure DictResult where
  result : Except Unit DictRecord
  state : CacheState
  ops : List NetOp

/-- The download branch of `get_dict` (from `print('Downloading latest
dictionary.')` on): fetch the payload, `raise_for_status`, check the
SHA-256 digest against the advertised one, optionally decompress when the
payload starts with the zstd magic, then replace the cached record and
timestamp.  `sha256hex` stands for `hashlib.sha256(...).hexdigest()` and
`decompress` for `zstandard.ZstdDecompressor().decompress`. -/
def downloadDict (sha256hex : List Nat → Str) (decompress : List Nat → List Nat)
    (now : Int) (meta : MetaResponse) (payload : PayloadResponse)
    (cls : CacheState) : DictResult :=
  if payload.ok = false then
    ⟨.error (), cls, [.metaRequest, .payloadDownload meta.url]⟩
  else if sha256hex payload.content ≠ meta.sha256 then
    ⟨.error (), cls, [.metaRequest, .payloadDownload meta.url]⟩
  else
    let raw := if payload.content.take 4 = zstdMagic then decompress payload.content
               else payload.content
    ⟨.ok ⟨meta.id, raw⟩, ⟨now, some ⟨meta.id, raw⟩⟩,
     [.metaRequest, .payloadDownload meta.url]⟩

/-- `ZstdDict.get_dict`.  `now` models `time.time()`; `meta` and `payload`
the two HTTP responses the environment would give.  Returns the result
(`.error` = a raised exception), the class state after the call, and the
network requests issued. -/
def get_dict (sha256hex : List Nat → Str) (decompress : List Nat → List Nat)
    (now : Int) (meta : MetaResponse) (payload : PayloadResponse)
    (cls : CacheState) : DictResult :=
  match cls.data with
  | some d =>
    if now - cls.created < 1800 then ⟨.ok d, cls, []⟩
    else if meta.ok = false then ⟨.error (), cls, [.metaRequest]⟩
    else if meta.id = d.id then ⟨.ok d, { cls with created := now }, [.metaRequest]⟩
    else downloadDict sha256hex decompress now meta payload cls
  | none =>
    if meta.ok = false then ⟨.error (), cls, [.metaRequest]⟩
    else downloadDict sha256hex decompress now meta payload cls

/-! ### Sample fixtures (the end-to-end item of the tracker protocol) -/

/-- A concrete item of type `web`, as assigned by the tracker
(`web:initial:octocat/Hello-World`), after staging. -/
def sampleItem : MoveItem :=
  ⟨"/d/web_initial_octocat_Hello-World".data, "/d".data, "base1".data,
   "github".data, "7".data, "web:initial:octocat/Hello-World".data,
   "20210730".data⟩

/-- A filesystem holding the fetch products and the staging placeholder. -/
def sampleFs : List Str :=
  [warcSrcPath sampleItem, dataSrcPath sampleItem,
   placeholderWarcPath sampleItem.item_dir sampleItem.warc_file_base]

/-! ### Helper lemmas -/

theorem append_ne_append_of_ne {p s1 s2 : Str} (h : s1 ≠ s2) : p ++ s1 ≠ p ++ s2 := by
  intro he
  have hd := congrArg (List.drop p.length) he
  rw [List.drop_left, List.drop_left] at hd
  exact h hd

theorem mem_replaceChar {a b c : Char} {s : Str} (hc : c ∈ replaceChar a b s) :
    c = b ∨ (c ∈ s ∧ c ≠ a) := by
  simp only [replaceChar, List.mem_map] at hc
  obtain ⟨e, he, rfl⟩ := hc
  split_ifs with h
  · exact Or.inl rfl
  · exact Or.inr ⟨he, h⟩

/-! ### Theorems -/

/-- C6: for every item identifier, the sanitized name used as the staging
directory name (`escaped_item_name`, the last path component of
`dirnameOf`) contains none of the characters `:`, `/`, `~`: each of their
occurrences was replaced by `_`. -/
theorem escaped_item_name_safe (item_name : Str) (c : Char)
    (hc : c ∈ escaped_item_name item_name) : c ≠ ':' ∧ c ≠ '/' ∧ c ≠ '~' := by
  unfold escaped_item_name at hc
  rcases mem_replaceChar hc with h3 | ⟨hc2, hne3⟩
  · subst h3; refine ⟨by decide, by decide, by decide⟩
  · rcases mem_replaceChar hc2 with h2 | ⟨hc1, hne2⟩
    · subst h2; refine ⟨by decide, by decide, by decide⟩
    · rcases mem_replaceChar hc1 with h1 | ⟨_, hne1⟩
      · subst h1; refine ⟨by decide, by decide, by decide⟩
      · exact ⟨hne1, hne2, hne3⟩

theorem escaped_item_name_safe_witness :
    ('_' ∈ escaped_item_name ("a:b/c~d".data))
    ∧ (('_' : Char) ≠ ':' ∧ ('_' : Char) ≠ '/' ∧ ('_' : Char) ≠ '~') :=
  ⟨by decide, escaped_item_name_safe ("a:b/c~d".data) '_' (by decide)⟩

/-- C7: the output basename is the `-`-join of the prefix, the sanitized
identifier truncated to 45 characters, the first 10 hex characters of the
identifier's SHA-1 digest, and the local timestamp; and it is
deterministic in the identifier and timestamp. -/
theorem warc_file_base_spec (sha1hex : Str → Str) (pre n1 n2 t1 t2 : Str)
    (hn : n1 = n2) (ht : t1 = t2) :
    warc_file_base sha1hex pre n1 t1
      = pre ++ ['-'] ++ (escaped_item_name n1).take 45 ++ ['-']
        ++ (sha1hex n1).take 10 ++ ['-'] ++ t1
    ∧ warc_file_base sha1hex pre n1 t1 = warc_file_base sha1hex pre n2 t2 := by
  subst hn; subst ht
  refine ⟨?_, rfl⟩
  simp [warc_file_base, List.intercalate, List.intersperse, List.append_assoc]

theorem warc_file_base_spec_witness :
    warc_file_base (fun s => s) ("github".data) ("a:b".data) ("20210730-120000".data)
      = ("github".data) ++ ['-'] ++ (escaped_item_name ("a:b".data)).take 45 ++ ['-']
        ++ ((fun (s : Str) => s) ("a:b".data)).take 10 ++ ['-'] ++ ("20210730-120000".data)
    ∧ warc_file_base (fun s => s) ("github".data) ("a:b".data) ("20210730-120000".data)
      = warc_file_base (fun s => s) ("github".data) ("a:b".data) ("20210730-120000".data) :=
  warc_file_base_spec (fun s => s) ("github".data) ("a:b".data) ("a:b".data)
    ("20210730-120000".data) ("20210730-120000".data) rfl rfl

/-- C8: the sanity check resolves the six fixed hostnames; the number of
distinct addresses is at most six, the check raises exactly when it is
below six, and passes when it is exactly six. -/
theorem checkIP_spec (resolve : Str → Str) :
    ((hostnames.map resolve).dedup.length ≤ 6)
    ∧ ((hostnames.map resolve).dedup.length < 6 → checkIP resolve = .error ())
    ∧ ((hostnames.map resolve).dedup.length = 6 → checkIP resolve = .ok ()) := by
  have hle : (hostnames.map resolve).dedup.length ≤ 6 := by
    have h1 := (List.dedup_sublist (hostnames.map resolve)).length_le
    simpa [hostnames] using h1
  refine ⟨hle, ?_, ?_⟩
  · intro h; unfold checkIP; rw [if_pos (by omega)]
  · intro h; unfold checkIP; rw [if_neg (by omega)]

theorem checkIP_spec_witness :
    checkIP (fun h => h) = .ok () ∧ checkIP (fun _ => "0.0.0.0".data) = .error () := by
  constructor
  · exact (checkIP_spec (fun h => h)).2.2 (by decide)
  · exact (checkIP_spec (fun _ => "0.0.0.0".data)).2.1 (by decide)

/-- C2: when the shuffled candidate list splits as `l1 ++ t :: l2` with every
candidate before `t` probing to `accepts: false` without raising and `t`'s
probe accepting, `find_target` selects `t` — with `:downloader` replaced by
the item's downloader identity — and stops there, having probed exactly
`l1.length + 1` candidates, whatever `l2` contains.  In particular, for any
shuffle order of a list in which exactly one candidate accepts and no probe
raises, that candidate is returned. -/
theorem find_target_spec (probe : Str → Except Unit Bool) (downloader : Str)
    (l1 l2 : List Str) (t dt : Str)
    (h1 : ∀ u ∈ l1, ∃ d, extractDomain u = some d ∧ probe d = .ok false)
    (ht : extractDomain t = some dt) (hp : probe dt = .ok true) :
    (find_target probe downloader (l1 ++ t :: l2)).1 =
      .ok (some (strReplace (":downloader".data) downloader t))
    ∧ (find_target probe downloader (l1 ++ t :: l2)).2.length = l1.length + 1 := by
  induction l1 with
  | nil =>
    rw [List.nil_append]
    simp [find_target, ht, hp]
  | cons u us ih =>
    obtain ⟨d, hd, hpd⟩ := h1 u (by simp)
    have ihh := ih (fun v hv => h1 v (by simp [hv]))
    rw [List.cons_append]
    simp only [find_target, hd, hpd]
    exact ⟨ihh.1, by simp [ihh.2]⟩

theorem find_target_spec_witness :
    (find_target (fun d => if d = "b.example".data then .ok true else .ok false)
        ("dl-1".data)
        (["http://a.example/x".data] ++ ("rsync://b.example/st/:downloader/".data) :: [])).1
      = .ok (some (strReplace (":downloader".data) ("dl-1".data)
          ("rsync://b.example/st/:downloader/".data)))
    ∧ (find_target (fun d => if d = "b.example".data then .ok true else .ok false)
        ("dl-1".data)
        (["http://a.example/x".data] ++ ("rsync://b.example/st/:downloader/".data) :: [])).2.length
      = (["http://a.example/x".data] : List Str).length + 1 := by
  refine find_target_spec _ _ _ _ _ ("b.example".data) ?_ (by decide) (by rfl)
  intro u hu
  rw [List.mem_singleton] at hu
  subst hu
  exact ⟨"a.example".data, by decide, by rfl⟩

/-- C3: an attempt of `ChooseTargetAndUpload.process` whose environment does
not yield a successful transfer (target discovery raised, a probe raised, no
candidate accepted — including an empty list — or the rsync transfer failed)
never ends in a terminal failure: it always schedules a deferred
re-invocation of `process` on the event loop (`UploadAction.addTimeout`,
modelling `IOLoop.add_timeout`, not a blocking sleep) after exactly
`retry_sleep = 10` time units; so as long as no attempt succeeds the trace
is an unbounded run of such reschedules with no completion, and the first
successful transfer completes the item. -/
theorem choose_target_retry_forever
    (outcomes : Nat → Except Unit (Option Str) × Bool) (n : Nat)
    (h : ∀ k, k < n → attemptOk (outcomes k) = false) :
    retry_sleep = 10
    ∧ uploadTrace outcomes n = List.replicate n (UploadAction.addTimeout 10)
    ∧ UploadAction.complete ∉ uploadTrace outcomes n
    ∧ (attemptOk (outcomes n) = true →
        processAction (outcomes n).1 (outcomes n).2 = .complete) := by
  have hcase : ∀ p : Except Unit (Option Str) × Bool, attemptOk p = false →
      processAction p.1 p.2 = .addTimeout 10 := by
    rintro ⟨fr, tOk⟩ hfail
    match fr with
    | .error e => rfl
    | .ok none => rfl
    | .ok (some t) =>
      simp only [attemptOk, Bool.true_and] at hfail
      simp [processAction, retry_sleep, hfail]
  have htrace : uploadTrace outcomes n = List.replicate n (UploadAction.addTimeout 10) := by
    refine List.eq_replicate_iff.2 ⟨by simp [uploadTrace], ?_⟩
    intro b hb
    simp only [uploadTrace, List.mem_map, List.mem_range] at hb
    obtain ⟨k, hk, rfl⟩ := hb
    exact hcase (outcomes k) (h k hk)
  refine ⟨rfl, htrace, ?_, ?_⟩
  · rw [htrace]
    intro hmem
    exact absurd (List.eq_of_mem_replicate hmem) (by decide)
  · intro hsucc
    rcases hs : (outcomes n).1 with e | o
    · simp [attemptOk, hs] at hsucc
    · rcases o with _ | t
      · simp [attemptOk, hs] at hsucc
      · simp only [attemptOk, hs, Bool.true_and] at hsucc
        simp [processAction, hs, hsucc]

theorem choose_target_retry_forever_witness :
    retry_sleep = 10
    ∧ uploadTrace
        (fun k => if k < 3 then ((Except.ok none : Except Unit (Option Str)), false)
                  else (.ok (some ("rsync://b.example/st/dl-1/".data)), true)) 3
      = List.replicate 3 (UploadAction.addTimeout 10)
    ∧ UploadAction.complete ∉ uploadTrace
        (fun k => if k < 3 then ((Except.ok none : Except Unit (Option Str)), false)
                  else (.ok (some ("rsync://b.example/st/dl-1/".data)), true)) 3
    ∧ (attemptOk ((fun k => if k < 3 then ((Except.ok none : Except Unit (Option Str)), false)
                  else (.ok (some ("rsync://b.example/st/dl-1/".data)), true)) 3) = true →
        processAction
          ((fun k => if k < 3 then ((Except.ok none : Except Unit (Option Str)), false)
                  else (.ok (some ("rsync://b.example/st/dl-1/".data)), true)) 3).1
          ((fun k => if k < 3 then ((Except.ok none : Except Unit (Option Str)), false)
                  else (.ok (some ("rsync://b.example/st/dl-1/".data)), true)) 3).2
          = .complete) :=
  choose_target_retry_forever
    (fun k => if k < 3 then ((Except.ok none : Except Unit (Option Str)), false)
              else (.ok (some ("rsync://b.example/st/dl-1/".data)), true)) 3
    (by decide)

/-- C4: with a cached record `d` present, a call younger than 1800 seconds
returns `d` with no network request and leaves the state untouched; a stale
call whose metadata reports the same id issues only the metadata request —
no payload download — refreshes only the timestamp, and returns the cached
bytes bit-identical. -/
theorem get_dict_cache_spec (sha256hex : List Nat → Str) (decompress : List Nat → List Nat)
    (now : Int) (meta : MetaResponse) (payload : PayloadResponse)
    (cls : CacheState) (d : DictRecord) (hd : cls.data = some d) :
    (now - cls.created < 1800 →
      get_dict sha256hex decompress now meta payload cls = ⟨.ok d, cls, []⟩)
    ∧ (¬ now - cls.created < 1800 → meta.ok = true → meta.id = d.id →
      get_dict sha256hex decompress now meta payload cls =
        ⟨.ok d, { cls with created := now }, [.metaRequest]⟩) := by
  constructor
  · intro hfresh
    simp [get_dict, hd, hfresh]
  · intro hstale hok hid
    simp [get_dict, hd, hstale, hok, hid]

theorem get_dict_cache_spec_witness :
    get_dict (fun _ => "h".data) (fun b => b) 100
        ⟨true, "id1".data, "u".data, "h".data⟩ ⟨true, [9]⟩
        ⟨0, some ⟨"id1".data, [1, 2, 3]⟩⟩
      = ⟨.ok ⟨"id1".data, [1, 2, 3]⟩, ⟨0, some ⟨"id1".data, [1, 2, 3]⟩⟩, []⟩
    ∧ get_dict (fun _ => "h".data) (fun b => b) 2000
        ⟨true, "id1".data, "u".data, "h".data⟩ ⟨true, [9]⟩
        ⟨0, some ⟨"id1".data, [1, 2, 3]⟩⟩
      = ⟨.ok ⟨"id1".data, [1, 2, 3]⟩, ⟨2000, some ⟨"id1".data, [1, 2, 3]⟩⟩, [.metaRequest]⟩ :=
  ⟨(get_dict_cache_spec (fun _ => "h".data) (fun b => b) 100
      ⟨true, "id1".data, "u".data, "h".data⟩ ⟨true, [9]⟩
      ⟨0, some ⟨"id1".data, [1, 2, 3]⟩⟩ ⟨"id1".data, [1, 2, 3]⟩ rfl).1 (by decide),
   (get_dict_cache_spec (fun _ => "h".data) (fun b => b) 2000
      ⟨true, "id1".data, "u".data, "h".data⟩ ⟨true, [9]⟩
      ⟨0, some ⟨"id1".data, [1, 2, 3]⟩⟩ ⟨"id1".data, [1, 2, 3]⟩ rfl).2 (by decide) rfl rfl⟩

/-- C5: when the cache cannot answer from the fresh-TTL path, every failing
outcome propagates an error and leaves the cached record and its timestamp
unchanged: a non-successful metadata response, a non-successful payload
response, and a payload whose SHA-256 digest differs from the advertised
one all yield `.error` with the state exactly `cls` — no partial or corrupt
dictionary is ever stored. -/
theorem get_dict_no_corrupt (sha256hex : List Nat → Str) (decompress : List Nat → List Nat)
    (now : Int) (meta : MetaResponse) (payload : PayloadResponse)
    (cls : CacheState)
    (hstale : ∀ d, cls.data = some d → ¬ now - cls.created < 1800) :
    (meta.ok = false →
      get_dict sha256hex decompress now meta payload cls
        = ⟨.error (), cls, [.metaRequest]⟩)
    ∧ (meta.ok = true → (∀ d, cls.data = some d → meta.id ≠ d.id) →
       payload.ok = false →
      get_dict sha256hex decompress now meta payload cls
        = ⟨.error (), cls, [.metaRequest, .payloadDownload meta.url]⟩)
    ∧ (meta.ok = true → (∀ d, cls.data = some d → meta.id ≠ d.id) →
       sha256hex payload.content ≠ meta.sha256 →
      get_dict sha256hex decompress now meta payload cls
        = ⟨.error (), cls, [.metaRequest, .payloadDownload meta.url]⟩) := by
  refine ⟨?_, ?_, ?_⟩
  · intro hmok
    cases hc : cls.data with
    | none => simp [get_dict, hc, hmok]
    | some d => simp [get_dict, hc, hstale d hc, hmok]
  · intro hmok hid hpay
    have hdl : downloadDict sha256hex decompress now meta payload cls
        = ⟨.error (), cls, [.metaRequest, .payloadDownload meta.url]⟩ := by
      simp [downloadDict, hpay]
    cases hc : cls.data with
    | none => simp [get_dict, hc, hmok, hdl]
    | some d => simp [get_dict, hc, hstale d hc, hmok, hid d hc, hdl]
  · intro hmok hid hdig
    have hdl : downloadDict sha256hex decompress now meta payload cls
        = ⟨.error (), cls, [.metaRequest, .payloadDownload meta.url]⟩ := by
      cases hpo : payload.ok with
      | false => simp [downloadDict, hpo]
      | true => simp [downloadDict, hpo, hdig]
    cases hc : cls.data with
    | none => simp [get_dict, hc, hmok, hdl]
    | some d => simp [get_dict, hc, hstale d hc, hmok, hid d hc, hdl]

theorem get_dict_no_corrupt_witness :
    get_dict (fun _ => "X".data) (fun b => b) 2000
        ⟨false, "id2".data, "u".data, "Y".data⟩ ⟨true, [9]⟩
        ⟨0, some ⟨"id1".data, [1, 2, 3]⟩⟩
      = ⟨.error (), ⟨0, some ⟨"id1".data, [1, 2, 3]⟩⟩, [.metaRequest]⟩
    ∧ get_dict (fun _ => "X".data) (fun b => b) 2000
        ⟨true, "id2".data, "u".data, "Y".data⟩ ⟨true, [9]⟩
        ⟨0, some ⟨"id1".data, [1, 2, 3]⟩⟩
      = ⟨.error (), ⟨0, some ⟨"id1".data, [1, 2, 3]⟩⟩,
         [.metaRequest, .payloadDownload ("u".data)]⟩ := by
  constructor
  · exact (get_dict_no_corrupt (fun _ => "X".data) (fun b => b) 2000
      ⟨false, "id2".data, "u".data, "Y".data⟩ ⟨true, [9]⟩
      ⟨0, some ⟨"id1".data, [1, 2, 3]⟩⟩
      (by intro d hd; decide)).1 rfl
  · exact (get_dict_no_corrupt (fun _ => "X".data) (fun b => b) 2000
      ⟨true, "id2".data, "u".data, "Y".data⟩ ⟨true, [9]⟩
      ⟨0, some ⟨"id1".data, [1, 2, 3]⟩⟩
      (by intro d hd; decide)).2.2 rfl
      (by intro d hd; injection hd with h; subst h; decide) (by decide)

theorem dataSrc_ne_warcSrc (it : MoveItem) : dataSrcPath it ≠ warcSrcPath it := by
  unfold dataSrcPath warcSrcPath
  exact append_ne_append_of_ne (by decide)

theorem placeholder_ne_warcSrc (it : MoveItem) :
    placeholderWarcPath it.item_dir it.warc_file_base ≠ warcSrcPath it := by
  unfold placeholderWarcPath warcSrcPath
  exact append_ne_append_of_ne (by decide)

theorem placeholder_removed (d b : Str) (fs : List Str) :
    placeholderWarcPath d b ∉ rmtreeFs d fs := by
  intro hmem
  simp only [rmtreeFs, List.mem_filter] at hmem
  have hpre : (d ++ ['/']).isPrefixOf (placeholderWarcPath d b) = true := by
    rw [List.isPrefixOf_iff_prefix]
    unfold placeholderWarcPath
    rw [List.append_assoc (d ++ ['/']) b (".warc.gz".data)]
    exact List.prefix_append _ _
  simp [hpre] at hmem

/-- C1 counterexample: the claim says an item of type `web` posts no
follow-up work item, but `MoveFiles.process` has no type conditional: for
the type-`web` item `web:initial:octocat/Hello-World` the finalize step
does POST the follow-up identifier (`web` and the recorded start time,
then the remaining fields) to the downstream queue. -/
theorem moveFiles_requeues_web_counterexample :
    MFEvent.postQueue ("web:20210730:octocat/Hello-World".data)
      ∈ (moveFilesRun sampleItem 200 sampleFs).events := by decide

/-- C1 (amended): whenever the finalize step runs to the queue step (both
artifact renames succeed), it enqueues the follow-up work item — the
identifier with its leading two colon-delimited fields replaced by `web`
and the recorded start time — unconditionally, for every item type,
including items of type `web`. -/
theorem moveFiles_always_requeues (it : MoveItem) (st : Nat) (fs : List Str)
    (h1 : warcSrcPath it ∈ fs) (h2 : dataSrcPath it ∈ fs) :
    MFEvent.postQueue (new_item it.item_name it.start_time)
      ∈ (moveFilesRun it st fs).events := by
  have h2e : dataSrcPath it ∈ warcDstPath it :: fs.erase (warcSrcPath it) :=
    List.mem_cons_of_mem _ ((List.mem_erase_of_ne (dataSrc_ne_warcSrc it)).mpr h2)
  simp [moveFilesRun, osRename, h1, h2e]

theorem moveFiles_always_requeues_witness :
    MFEvent.postQueue (new_item sampleItem.item_name sampleItem.start_time)
      ∈ (moveFilesRun sampleItem 404 sampleFs).events :=
  moveFiles_always_requeues sampleItem 404 sampleFs (by decide) (by decide)

/-- C9: the archive placeholder created at staging time carries the
`.warc.gz` extension while the finalizer renames the `.warc.zst` file, so
the placeholder is never the file finalized: the two paths always differ,
finalization can only succeed when the separate `.warc.zst` artifact
exists on disk, and the placeholder (living inside the staging directory)
is deleted by the `shutil.rmtree` of the staging directory. -/
theorem placeholder_never_finalized (it : MoveItem) (st : Nat) (fs : List Str) :
    placeholderWarcPath it.item_dir it.warc_file_base ≠ warcSrcPath it
    ∧ ((moveFilesRun it st fs).outcome = .ok () → warcSrcPath it ∈ fs)
    ∧ placeholderWarcPath it.item_dir it.warc_file_base ∉ rmtreeFs it.item_dir fs := by
  refine ⟨placeholder_ne_warcSrc it, ?_, placeholder_removed _ _ fs⟩
  intro hok
  by_cases h : warcSrcPath it ∈ fs
  · exact h
  · exfalso
    have hrun : moveFilesRun it st fs = ⟨fs, .error (), []⟩ := by
      simp [moveFilesRun, osRename, h]
    rw [hrun] at hok
    simp at hok

theorem placeholder_never_finalized_witness :
    placeholderWarcPath sampleItem.item_dir sampleItem.warc_file_base ≠ warcSrcPath sampleItem
    ∧ ((moveFilesRun sampleItem 200 sampleFs).outcome = .ok () →
        warcSrcPath sampleItem ∈ sampleFs)
    ∧ placeholderWarcPath sampleItem.item_dir sampleItem.warc_file_base
        ∉ rmtreeFs sampleItem.item_dir sampleFs :=
  placeholder_never_finalized sampleItem 200 sampleFs

/-- C10: when both renames succeed, the downstream queue POST is the last
of the four side effects — after both renames and the staging-directory
deletion — and a non-200 queue status makes the step raise while the
filesystem keeps the renamed artifacts and the deleted staging directory:
nothing is rolled back, so the finalize step is not atomic on queue
failure. -/
theorem moveFiles_not_atomic (it : MoveItem) (st : Nat) (fs : List Str)
    (h1 : warcSrcPath it ∈ fs) (h2 : dataSrcPath it ∈ fs) (hst : st ≠ 200) :
    (moveFilesRun it st fs).events
      = [.renameWarc (warcSrcPath it) (warcDstPath it),
         .renameData (dataSrcPath it) (dataDstPath it),
         .rmtreeDir it.item_dir,
         .postQueue (new_item it.item_name it.start_time)]
    ∧ (moveFilesRun it st fs).outcome = .error ()
    ∧ (moveFilesRun it st fs).fs
      = rmtreeFs it.item_dir
          (dataDstPath it :: (warcDstPath it :: fs.erase (warcSrcPath it)).erase
            (dataSrcPath it)) := by
  have h2e : dataSrcPath it ∈ warcDstPath it :: fs.erase (warcSrcPath it) :=
    List.mem_cons_of_mem _ ((List.mem_erase_of_ne (dataSrc_ne_warcSrc it)).mpr h2)
  refine ⟨?_, ?_, ?_⟩ <;> simp [moveFilesRun, osRename, h1, h2e, hst]

theorem moveFiles_not_atomic_witness :
    (moveFilesRun sampleItem 500 sampleFs).events
      = [.renameWarc (warcSrcPath sampleItem) (warcDstPath sampleItem),
         .renameData (dataSrcPath sampleItem) (dataDstPath sampleItem),
         .rmtreeDir sampleItem.item_dir,
         .postQueue (new_item sampleItem.item_name sampleItem.start_time)]
    ∧ (moveFilesRun sampleItem 500 sampleFs).outcome = .error ()
    ∧ (moveFilesRun sampleItem 500 sampleFs).fs
      = rmtreeFs sampleItem.item_dir
          (dataDstPath sampleItem :: (warcDstPath sampleItem ::
            sampleFs.erase (warcSrcPath sampleItem)).erase (dataSrcPath sampleItem)) :=
  moveFiles_not_atomic sampleItem 500 sampleFs (by decide) (by decide) (by decide)
